import Mathlib

/-!
Verification of the URL-shortener service (server.js).

The service keeps two JSON documents on disk, each a mapping from an
identifier string to a record object: the API-key store and the URL store.
We embed each store as an association list with JavaScript-object
semantics (first binding wins on lookup; assignment replaces the existing
binding in place, otherwise appends). Timestamps are modelled as natural
numbers (milliseconds since the epoch); `new Date()` at the moment an
operation runs is passed in as an explicit `now` parameter, and the random
bytes drawn by `crypto.randomBytes` are passed in as explicit byte-list
parameters, so every operation is a pure function of its inputs.
-/

namespace UrlShortener

/-- Own-property lookup on the persisted mapping: the first binding for
the key, if any. This is what `Object.values`/`Object.entries` and
`JSON.stringify` see; a bracket read `obj[k]` additionally consults the
prototype chain, which `jsGet` below models. -/
def objGet {α : Type} : List (String × α) → String → Option α
  | [], _ => none
  | (k', v) :: rest, k => if k' = k then some v else objGet rest k

/-- Whether a key is present in the mapping. -/
def objHas {α : Type} (m : List (String × α)) (k : String) : Bool :=
  (objGet m k).isSome

/-- JavaScript-object assignment `m[k] = v`: replaces the first binding for
`k` in place if one exists, otherwise appends a new binding at the end
(insertion order, as JS objects preserve it). -/
def objSet {α : Type} : List (String × α) → String → α → List (String × α)
  | [], k, v => [(k, v)]
  | (k', v') :: rest, k, v =>
      if k' = k then (k', v) :: rest else (k', v') :: objSet rest k v

/-- The property names every plain object (`JSON.parse` result or object
literal) inherits from `Object.prototype`, all bound to truthy values
(functions, and the prototype object itself for the last one). -/
def protoPropNames : List String :=
  ["constructor", "hasOwnProperty", "isPrototypeOf", "propertyIsEnumerable",
   "toLocaleString", "toString", "valueOf", "__defineGetter__",
   "__defineSetter__", "__lookupGetter__", "__lookupSetter__", "__proto__"]

/-- Whether a key names an inherited `Object.prototype` property. -/
def isProtoProp (k : String) : Bool := protoPropNames.contains k

/-- The result of a JavaScript bracket read `obj[k]` on a plain object:
a stored own property, a truthy value inherited from `Object.prototype`,
or `undefined` (falsy). -/
inductive JsProp (α : Type)
  | stored (v : α)
  | inherited
  | undefinedVal
deriving Repr

/-- JavaScript bracket lookup `obj[k]`: the own property when present,
else the inherited `Object.prototype` member when the key names one, else
`undefined`. -/
def jsGet {α : Type} (m : List (String × α)) (k : String) : JsProp α :=
  match objGet m k with
  | some v => .stored v
  | none => if isProtoProp k then .inherited else .undefinedVal

/-- The sixteen lowercase hexadecimal digit characters. -/
def hexDigits : List Char := "0123456789abcdef".data

/-- The hexadecimal digit for a value below 16. -/
def hexDigit (n : Nat) : Char := hexDigits.getD n '0'

/-- The two lowercase hex characters encoding one byte, as produced by
Node's `Buffer.toString('hex')`. -/
def byteToHex (b : Nat) : List Char := [hexDigit (b / 16 % 16), hexDigit (b % 16)]

/-- `crypto.randomBytes(n).toString('hex')`: the lowercase hexadecimal
encoding of a byte sequence. The random bytes themselves are a parameter. -/
def bytesToHex (bs : List Nat) : String := String.mk ((bs.map byteToHex).flatten)

/-- ApiKeyRecord: the record stored in `data/api-keys.json` under a key.
`createdAt`, `expiresAt`, `lastUsed`, `revokedAt`, `updatedAt` are ISO
timestamps in the source, modelled as epoch milliseconds. -/
structure ApiKeyRecord where
  userId : String
  createdAt : Nat
  expiresAt : Nat
  lastUsed : Option Nat
  revoked : Bool
  revokedAt : Option Nat
  description : Option String
  updatedAt : Option Nat
deriving Repr, DecidableEq

/-- UrlRecord: the record stored in `data/urls.json` under a short id.
`userId` is `req.userId` set by the auth gate; `none` models the
`undefined` it holds when the gate passed through an inherited
`Object.prototype` property (the field is then dropped by
`JSON.stringify` on persist). -/
structure UrlRecord where
  originalUrl : String
  userId : Option String
  createdAt : Nat
deriving Repr, DecidableEq

abbrev KeyStore := List (String × ApiKeyRecord)
abbrev UrlStore := List (String × UrlRecord)

/-- `apiKeyManager.isKeyExpired`: `new Date(keyData.expiresAt) < new Date()`,
i.e. the key is expired exactly when `expiresAt` is strictly before `now`. -/
def isKeyExpired (keyData : ApiKeyRecord) (now : Nat) : Bool :=
  keyData.expiresAt < now

/-- `apiKeyManager.countUserKeys`: the number of stored records whose
`userId` matches, with no regard to the `revoked` flag. -/
def countUserKeys (store : KeyStore) (userId : String) : Nat :=
  (store.filter (fun p => p.2.userId == userId)).length

/-- `apiKeyManager.getExpirationDate`: `date.setDate(date.getDate() + 30)`
on the current date. With the server clock in a fixed-offset timezone
(no DST shift inside the window) this is exactly now plus 30 days of
86400000 milliseconds each. -/
def getExpirationDate (now : Nat) : Nat := now + 30 * 86400000

/-- JavaScript truthiness fallback `req.body.userId || generated`: an
absent or empty-string field falls back to the generated value. -/
def effectiveUserId (bodyUserId : Option String) (generated : String) : String :=
  match bodyUserId with
  | none => generated
  | some s => if s = "" then generated else s

/-- JavaScript truthiness fallback `req.body.description || null`. -/
def effectiveDescription : Option String → Option String
  | none => none
  | some s => if s = "" then none else some s

/-- Outcome of `POST /api/keys`. -/
inductive CreateResult
  | quotaExceeded
  | ok (apiKey userId : String) (expiresAt : Nat)
deriving Repr, DecidableEq

/-- `POST /api/keys`: resolve the userId (supplied or generated from 8
random bytes), refuse with HTTP 400 when the user already holds
`MAX_KEYS_PER_USER = 5` records, otherwise store a fresh record under the
generated 16-random-byte hex key and answer with key, userId and
expiresAt. -/
def createKey (bodyUserId bodyDescription : Option String)
    (userIdBytes keyBytes : List Nat) (now : Nat) (store : KeyStore) :
    CreateResult × KeyStore :=
  let userId := effectiveUserId bodyUserId (bytesToHex userIdBytes)
  if 5 ≤ countUserKeys store userId then
    (.quotaExceeded, store)
  else
    let key := bytesToHex keyBytes
    let newRec : ApiKeyRecord :=
      { userId := userId
        createdAt := now
        expiresAt := getExpirationDate now
        lastUsed := none
        revoked := false
        revokedAt := none
        description := effectiveDescription bodyDescription
        updatedAt := none }
    (.ok key userId newRec.expiresAt, objSet store key newRec)

/-- Outcome of the `validateApiKey` middleware. All failures answer
HTTP 401 with the error message distinguishing the cases. `okInherited`
is the gate passing through an inherited `Object.prototype` property:
`req.userId` is then `undefined`. -/
inductive ValidateResult
  | unauthorized
  | invalidKey
  | revokedKey
  | expiredKey
  | ok (userId : String)
  | okInherited
deriving Repr, DecidableEq

/-- `validateApiKey` middleware: reject when the `x-api-key` header is
falsy (absent or empty); read `keyData = apiKeys[apiKey]` by bracket
lookup and reject when it is falsy (`undefined`), then when
`keyData.revoked` is truthy, then when `isKeyExpired(keyData)` — in that
order; on success stamp `lastUsed = now`, persist, and expose
`keyData.userId` to the downstream handler. When the header names an
inherited `Object.prototype` property on an empty-or-missing slot, the
lookup yields the truthy inherited value: `revoked` is `undefined`,
`isKeyExpired` compares `new Date(undefined)` (Invalid Date, `NaN < t` is
false), the `lastUsed` assignment lands on the inherited object rather
than on an own property of the mapping (so the persisted mapping is
written back unchanged), and the gate passes with `req.userId`
undefined. -/
def validateApiKey (hdr : Option String) (store : KeyStore) (now : Nat) :
    ValidateResult × KeyStore :=
  match hdr with
  | none => (.unauthorized, store)
  | some apiKey =>
    if apiKey = "" then (.unauthorized, store)
    else
      match jsGet store apiKey with
      | .undefinedVal => (.invalidKey, store)
      | .inherited => (.okInherited, store)
      | .stored keyData =>
        if keyData.revoked then (.revokedKey, store)
        else if isKeyExpired keyData now then (.expiredKey, store)
        else (.ok keyData.userId,
              objSet store apiKey { keyData with lastUsed := some now })

/-- Outcome of `DELETE /api/keys/:apiKey`. `okInherited`: the bracket
read `apiKeys[apiKey]` hit an inherited `Object.prototype` property, so
the 404 branch is skipped and the flags are set on the inherited object —
the persisted mapping is written back unchanged, with a 200 answer. -/
inductive RevokeResult
  | notFound
  | ok
  | okInherited
deriving Repr, DecidableEq

/-- `DELETE /api/keys/:apiKey`: 404 when `apiKeys[apiKey]` is falsy;
otherwise set the soft flags `revoked = true`, `revokedAt = now` and
persist. -/
def revokeKey (k : String) (now : Nat) (store : KeyStore) :
    RevokeResult × KeyStore :=
  match jsGet store k with
  | .undefinedVal => (.notFound, store)
  | .inherited => (.okInherited, store)
  | .stored keyData =>
      (.ok, objSet store k { keyData with revoked := true, revokedAt := some now })

/-- Outcome of `PATCH /api/keys/:apiKey`. `okInherited`: the bracket read
hit an inherited `Object.prototype` property, so the 404 branch is skipped
and description/updatedAt are set on the inherited object — the persisted
mapping is written back unchanged, with a 200 answer. -/
inductive PatchResult
  | notFound
  | ok (apiKey : String) (updated : ApiKeyRecord)
  | okInherited
deriving Repr, DecidableEq

/-- `PATCH /api/keys/:apiKey`: 404 when `apiKeys[apiKey]` is falsy;
otherwise overwrite the record's `description` with the request body's
field, stamp `updatedAt = now`, persist, and answer with the updated
record. -/
def updateDescription (k : String) (desc : Option String) (now : Nat)
    (store : KeyStore) : PatchResult × KeyStore :=
  match jsGet store k with
  | .undefinedVal => (.notFound, store)
  | .inherited => (.okInherited, store)
  | .stored keyData =>
      let updated := { keyData with description := desc, updatedAt := some now }
      (.ok k updated, objSet store k updated)

/-- `GET /api/keys/:userId`: all records whose userId matches. -/
def listKeys (userId : String) (store : KeyStore) : List (String × ApiKeyRecord) :=
  store.filter (fun p => p.2.userId == userId)

/-- A character the WHATWG URL parser strips from anywhere in the input
(tab, line feed, carriage return). -/
def isUrlStrippedChar (c : Char) : Bool :=
  c = Char.ofNat 9 || c = Char.ofNat 10 || c = Char.ofNat 13

/-- A C0 control or space, trimmed from both ends of the input by the
WHATWG URL parser. -/
def isC0OrSpace (c : Char) : Bool := c.toNat ≤ 32

/-- The input character list actually parsed by `new URL`: tab and newline
characters removed, then leading and trailing C0 controls and spaces
trimmed. -/
def urlChars (s : String) : List Char :=
  let cs := s.data.filter (fun c => !isUrlStrippedChar c)
  ((cs.dropWhile isC0OrSpace).reverse.dropWhile isC0OrSpace).reverse

/-- A character allowed after the first position of a URL scheme. -/
def isSchemeChar (c : Char) : Bool :=
  c.isAlphanum || c = '+' || c = '-' || c = '.'

/-- Splits a leading run of scheme characters at the first colon:
`some (scheme, rest)` when a colon terminates a run of scheme characters,
`none` otherwise. -/
def schemeSplit : List Char → Option (List Char × List Char)
  | [] => none
  | c :: rest =>
      if c = ':' then some ([], rest)
      else if isSchemeChar c then
        match schemeSplit rest with
        | some (sc, rem) => some (c :: sc, rem)
        | none => none
      else none

/-- The scheme of a URL input, per WHATWG: an ASCII-alpha first character
followed by scheme characters up to a colon; `some (scheme, rest)` on
success. -/
def parseScheme (cs : List Char) : Option (List Char × List Char) :=
  match cs with
  | [] => none
  | c :: _ => if c.isAlpha then schemeSplit cs else none

/-- The WHATWG special schemes whose URLs carry a mandatory authority. -/
def specialSchemes : List String := ["ftp", "file", "http", "https", "ws", "wss"]

/-- The authority segment: everything after the leading slashes up to the
first `/`, `\`, `?` or `#`. -/
def authorityOf (rest : List Char) : List Char :=
  (rest.dropWhile (fun c => c = '/' || c = '\\')).takeWhile
    (fun c => !(c = '/' || c = '\\' || c = '?' || c = '#'))

/-- The host inside an authority segment: the part after the last `@`
(userinfo) and before the first `:` (port). -/
def hostOf (authority : List Char) : List Char :=
  ((authority.reverse.takeWhile (fun c => c ≠ '@')).reverse).takeWhile
    (fun c => c ≠ ':')

/-- Modelled from the spec: the source's `isValidUrl` delegates URL-syntax
validation to Node's `new URL(string)` (the WHATWG URL parser), which is
platform library code not present in this repository. The spec calls this
"standard URL-parsing rules". This models the parser's acceptance: after
stripping, the input must begin with a scheme; a special scheme other than
`file` (http, https, ws, wss, ftp) additionally requires a non-empty host
in its authority; any other scheme is accepted with or without a host. -/
def newURLSucceeds (s : String) : Bool :=
  match parseScheme (urlChars s) with
  | none => false
  | some (sc, rem) =>
    let scheme : String := String.mk (sc.map Char.toLower)
    if specialSchemes.contains scheme && scheme ≠ "file" then
      !(hostOf (authorityOf rem)).isEmpty
    else true

/-- `isValidUrl`: `new URL(string)` inside try/catch — true exactly when
the constructor does not throw. -/
def isValidUrl (s : String) : Bool := newURLSucceeds s

/-- Written from the spec's own words, for comparison with the code's
validator: "must parse as an absolute URL per standard URL-parsing rules —
scheme + host at minimum", i.e. a scheme followed by an authority with a
non-empty host. -/
def specHasSchemeAndHost (s : String) : Bool :=
  match parseScheme (urlChars s) with
  | none => false
  | some (_, rem) =>
    match rem with
    | '/' :: '/' :: rest => !(hostOf (authorityOf rest)).isEmpty
    | _ => false

/-- Outcome of the `POST /api/shorten` handler body (after the auth gate). -/
inductive ShortenResult
  | invalidURL
  | ok (shortId originalUrl : String)
deriving Repr, DecidableEq

/-- `POST /api/shorten` after the auth gate: `!url || !isValidUrl(url)`
answers HTTP 400 with nothing written; otherwise store
`{originalUrl, userId, createdAt}` under the generated short id and answer
with the short id and the original URL. -/
def shortenUrl (url : Option String) (userId : String) (shortId : String)
    (now : Nat) (urls : UrlStore) : ShortenResult × UrlStore :=
  match url with
  | none => (.invalidURL, urls)
  | some u =>
    if u = "" then (.invalidURL, urls)
    else if isValidUrl u then
      (.ok shortId u,
       objSet urls shortId { originalUrl := u, userId := some userId, createdAt := now })
    else (.invalidURL, urls)

/-- The same handler body when the auth gate passed through an inherited
`Object.prototype` property: `req.userId` is `undefined`, so the stored
record's userId field is `undefined`. -/
def shortenUrlInherited (url : Option String) (shortId : String)
    (now : Nat) (urls : UrlStore) : ShortenResult × UrlStore :=
  match url with
  | none => (.invalidURL, urls)
  | some u =>
    if u = "" then (.invalidURL, urls)
    else if isValidUrl u then
      (.ok shortId u,
       objSet urls shortId { originalUrl := u, userId := none, createdAt := now })
    else (.invalidURL, urls)

/-- Outcome of `GET /:shortUrl`. `redirectUndefined`: the bracket read
`urls[shortUrl]` hit a truthy inherited `Object.prototype` property, so
the 404 branch is skipped and the handler calls
`res.redirect(urls[shortUrl].originalUrl)` with `undefined` — never a
404. -/
inductive ResolveResult
  | notFound
  | redirect (originalUrl : String)
  | redirectUndefined
deriving Repr, DecidableEq

/-- `GET /:shortUrl`: 404 when `urls[shortUrl]` is falsy; otherwise an
HTTP redirect to `urls[shortUrl].originalUrl` — the stored original URL
for a stored id, `undefined` when the bracket read hit an inherited
`Object.prototype` property. -/
def resolveUrl (shortId : String) (urls : UrlStore) : ResolveResult :=
  match jsGet urls shortId with
  | .undefinedVal => .notFound
  | .inherited => .redirectUndefined
  | .stored r => .redirect r.originalUrl

/-- A JSON value, for the flat-record-store contract. -/
inductive Json
  | null
  | bool (b : Bool)
  | num (n : Int)
  | str (s : String)
  | arr (elems : List Json)
  | obj (fields : List (String × Json))

/-- Outcome of `jsonFileMiddleware.readJSON`. -/
inductive ReadResult
  | ok (doc : Json)
  | parseError
deriving Inhabited

/-- `jsonFileMiddleware.readJSON`: read the file and `JSON.parse` it;
on ENOENT return the empty mapping, on a parse failure rethrow. The file
system is modelled as the file's content (`none` = file does not exist)
and `JSON.parse` — platform library code — as a parameter returning
`none` exactly when it would throw a SyntaxError. -/
def readJSON (parse : String → Option Json) (file : Option String) : ReadResult :=
  match file with
  | none => .ok (.obj [])
  | some contents =>
    match parse contents with
    | some doc => .ok doc
    | none => .parseError

/-- One request against the service, with all the nondeterminism (clock
readings, random bytes) supplied as parameters. -/
inductive Op
  | createOp (bodyUserId bodyDescription : Option String)
      (userIdBytes keyBytes : List Nat) (now : Nat)
  | listOp (userId : String)
  | revokeOp (k : String) (now : Nat)
  | patchOp (k : String) (desc : Option String) (now : Nat)
  | validateOp (hdr : Option String) (now : Nat)
  | shortenOp (hdr : Option String) (url : Option String) (shortId : String) (now : Nat)
  | resolveOp (s : String)

/-- The effect of one request on the pair of persisted stores. The shorten
route runs the `validateApiKey` middleware first (which persists
`lastUsed` on success) and only then the URL-handling body. -/
def applyOp : Op → KeyStore × UrlStore → KeyStore × UrlStore
  | .createOp bu bd ub kb now, (ks, us) => ((createKey bu bd ub kb now ks).2, us)
  | .listOp _, s => s
  | .revokeOp k now, (ks, us) => ((revokeKey k now ks).2, us)
  | .patchOp k d now, (ks, us) => ((updateDescription k d now ks).2, us)
  | .validateOp hdr now, (ks, us) => ((validateApiKey hdr ks now).2, us)
  | .shortenOp hdr url sid now, (ks, us) =>
      match validateApiKey hdr ks now with
      | (.ok uid, ks') => (ks', (shortenUrl url uid sid now us).2)
      | (.okInherited, ks') => (ks', (shortenUrlInherited url sid now us).2)
      | (_, ks') => (ks', us)
  | .resolveOp _, s => s

/-- A concrete unrevoked record expiring at time 1000, for witnesses. -/
def cexRec : ApiKeyRecord :=
  { userId := "u", createdAt := 0, expiresAt := 1000, lastUsed := none,
    revoked := false, revokedAt := none, description := none, updatedAt := none }

/-- A concrete revoked record, for the quota witness. -/
def cexRevokedRec : ApiKeyRecord :=
  { userId := "u", createdAt := 0, expiresAt := 1000, lastUsed := none,
    revoked := true, revokedAt := some 5, description := none, updatedAt := none }

/-- A key store holding five revoked records of the same user. -/
def cexStore5 : KeyStore :=
  [("k1", cexRevokedRec), ("k2", cexRevokedRec), ("k3", cexRevokedRec),
   ("k4", cexRevokedRec), ("k5", cexRevokedRec)]

/-- A concrete URL record, for the resolve witness. -/
def cexUrlRec : UrlRecord :=
  { originalUrl := "https://a.com", userId := some "u", createdAt := 0 }

/-- A concrete stand-in for `JSON.parse`, accepting exactly "null". -/
def cexParse : String → Option Json :=
  fun s => if s = "null" then some Json.null else none

theorem objGet_objSet_self {α : Type} (m : List (String × α)) (k : String) (v : α) :
    objGet (objSet m k v) k = some v := by
  induction m with
  | nil => simp [objGet, objSet]
  | cons hd tl ih =>
    obtain ⟨k', v'⟩ := hd
    by_cases h : k' = k
    · simp [objSet, objGet, h]
    · simp [objSet, objGet, h, ih]

theorem objGet_objSet_ne {α : Type} (m : List (String × α)) (k k' : String) (v : α)
    (h : k' ≠ k) : objGet (objSet m k v) k' = objGet m k' := by
  have h2 : k ≠ k' := Ne.symm h
  induction m with
  | nil => simp [objGet, objSet, h2]
  | cons hd tl ih =>
    obtain ⟨k'', v''⟩ := hd
    by_cases hk : k'' = k
    · subst hk
      simp [objSet, objGet, h2]
    · simp [objSet, objGet, hk, ih]

theorem objHas_objSet {α : Type} (m : List (String × α)) (k k' : String) (v : α)
    (h : objHas m k' = true) : objHas (objSet m k v) k' = true := by
  by_cases hk : k' = k
  · subst hk
    simp [objHas, objGet_objSet_self]
  · simpa [objHas, objGet_objSet_ne m k k' v hk] using h

theorem flatten_map_byteToHex_length (bs : List Nat) :
    ((bs.map byteToHex).flatten).length = 2 * bs.length := by
  induction bs with
  | nil => rfl
  | cons b tl ih =>
    simp only [List.map_cons, List.flatten_cons, List.length_append, ih,
      List.length_cons, byteToHex, List.length_nil]
    omega

theorem bytesToHex_length (bs : List Nat) : (bytesToHex bs).length = 2 * bs.length :=
  flatten_map_byteToHex_length bs

theorem hexDigit_mem_of_lt (n : Nat) (h : n < 16) : hexDigit n ∈ hexDigits := by
  interval_cases n <;> decide

theorem bytesToHex_mem (bs : List Nat) :
    ∀ c ∈ (bytesToHex bs).data, c ∈ hexDigits := by
  induction bs with
  | nil => intro c hc; simp [bytesToHex] at hc
  | cons b tl ih =>
    intro c hc
    simp only [bytesToHex, List.map_cons, List.flatten_cons, String.data,
      List.mem_append] at hc
    rcases hc with hc | hc
    · simp only [byteToHex, List.mem_cons, List.not_mem_nil, or_false] at hc
      rcases hc with rfl | rfl
      · exact hexDigit_mem_of_lt _ (Nat.mod_lt _ (by norm_num))
      · exact hexDigit_mem_of_lt _ (Nat.mod_lt _ (by norm_num))
    · exact ih c hc

theorem countUserKeys_map_revoked (store : KeyStore) (u : String) (b : Bool) :
    countUserKeys (store.map (fun p => (p.1, { p.2 with revoked := b }))) u =
      countUserKeys store u := by
  induction store with
  | nil => rfl
  | cons hd tl ih =>
    obtain ⟨k, uid, ca, ea, lu, rv, ra, de, ua⟩ := hd
    by_cases h : uid == u
    · simpa [countUserKeys, List.filter_cons, h] using ih
    · simpa [countUserKeys, List.filter_cons, h] using ih

theorem createKey_preserves (bu bd : Option String) (ub kb : List Nat) (now : Nat)
    (store : KeyStore) (k : String) (h : objHas store k = true) :
    objHas (createKey bu bd ub kb now store).2 k = true := by
  dsimp only [createKey]
  split
  · exact h
  · exact objHas_objSet _ _ _ _ h

theorem validateApiKey_preserves (hdr : Option String) (store : KeyStore) (now : Nat)
    (k : String) (h : objHas store k = true) :
    objHas (validateApiKey hdr store now).2 k = true := by
  unfold validateApiKey
  cases hdr with
  | none => exact h
  | some apiKey =>
    dsimp only
    split
    · exact h
    · split
      · exact h
      · exact h
      · split
        · exact h
        · split
          · exact h
          · exact objHas_objSet _ _ _ _ h

theorem revokeKey_preserves (kk : String) (now : Nat) (store : KeyStore)
    (k : String) (h : objHas store k = true) :
    objHas (revokeKey kk now store).2 k = true := by
  unfold revokeKey
  split
  · exact h
  · exact h
  · exact objHas_objSet _ _ _ _ h

theorem updateDescription_preserves (kk : String) (desc : Option String) (now : Nat)
    (store : KeyStore) (k : String) (h : objHas store k = true) :
    objHas (updateDescription kk desc now store).2 k = true := by
  unfold updateDescription
  split
  · exact h
  · exact h
  · exact objHas_objSet _ _ _ _ h

theorem shortenUrl_preserves (url : Option String) (uid sid : String) (now : Nat)
    (us : UrlStore) (k : String) (h : objHas us k = true) :
    objHas (shortenUrl url uid sid now us).2 k = true := by
  unfold shortenUrl
  cases url with
  | none => exact h
  | some u =>
    dsimp only
    split
    · exact h
    · split
      · exact objHas_objSet _ _ _ _ h
      · exact h

theorem shortenUrlInherited_preserves (url : Option String) (sid : String)
    (now : Nat) (us : UrlStore) (k : String) (h : objHas us k = true) :
    objHas (shortenUrlInherited url sid now us).2 k = true := by
  unfold shortenUrlInherited
  cases url with
  | none => exact h
  | some u =>
    dsimp only
    split
    · exact h
    · split
      · exact objHas_objSet _ _ _ _ h
      · exact h

/-- C1 counterexample: two clauses of the claim fail on the code. First,
at the boundary instant `now = expiresAt` the claim demands an Expired
failure, but `isKeyExpired` uses a strict comparison
(`new Date(expiresAt) < new Date()`), so validation succeeds on a key
whose expiry equals the current time. Second, with header
`x-api-key: constructor` — a key not in the store — the claim demands
InvalidKey, but the bracket read `apiKeys["constructor"]` yields the
truthy inherited `Object.prototype.constructor`, its `revoked` is
undefined, `isKeyExpired` is false on an Invalid Date, and the gate
passes with an undefined userId. -/
theorem C1_counterexample :
    ((1000 : Nat) ≥ cexRec.expiresAt ∧
     validateApiKey (some "k") [("k", cexRec)] 1000 =
       (ValidateResult.ok "u", [("k", { cexRec with lastUsed := some 1000 })]) ∧
     (validateApiKey (some "k") [("k", cexRec)] 1000).1 ≠
       ValidateResult.expiredKey) ∧
    (objGet ([] : KeyStore) "constructor" = none ∧
     validateApiKey (some "constructor") ([] : KeyStore) 1000 =
       (ValidateResult.okInherited, []) ∧
     (validateApiKey (some "constructor") ([] : KeyStore) 1000).1 ≠
       ValidateResult.invalidKey) := by
  refine ⟨⟨by decide, by decide, by decide⟩, by decide, by decide, by decide⟩

/-- C1 (amended): the Validate gate fails with Unauthorized when no API key
is present in the request, with InvalidKey when the key is not in the
store and does not name an Object.prototype property, with Revoked when
the stored record has revoked = true, and with Expired when
now > expiresAt (strictly) — checking the conditions in exactly that
order; when the key is absent from the store but names an
Object.prototype property, the inherited value is truthy and the gate
instead passes with an undefined userId and the persisted store
unchanged; on success with a stored record it sets the record's lastUsed
to the current time, persists the store, and yields the record's
userId. -/
theorem C1_validate_gate (hdr : Option String) (store : KeyStore) (now : Nat) :
    ((hdr = none ∨ hdr = some "") →
        validateApiKey hdr store now = (.unauthorized, store)) ∧
    (∀ k, hdr = some k → k ≠ "" → objGet store k = none →
        isProtoProp k = false →
        validateApiKey hdr store now = (.invalidKey, store)) ∧
    (∀ k, hdr = some k → k ≠ "" → objGet store k = none →
        isProtoProp k = true →
        validateApiKey hdr store now = (.okInherited, store)) ∧
    (∀ k kd, hdr = some k → k ≠ "" → objGet store k = some kd →
        kd.revoked = true →
        validateApiKey hdr store now = (.revokedKey, store)) ∧
    (∀ k kd, hdr = some k → k ≠ "" → objGet store k = some kd →
        kd.revoked = false → kd.expiresAt < now →
        validateApiKey hdr store now = (.expiredKey, store)) ∧
    (∀ k kd, hdr = some k → k ≠ "" → objGet store k = some kd →
        kd.revoked = false → now ≤ kd.expiresAt →
        validateApiKey hdr store now =
          (.ok kd.userId, objSet store k { kd with lastUsed := some now })) := by
  refine ⟨?_, ?_, ?_, ?_, ?_, ?_⟩
  · rintro (rfl | rfl)
    · rfl
    · simp [validateApiKey]
  · rintro k rfl hk hget hproto
    simp [validateApiKey, jsGet, hk, hget, hproto]
  · rintro k rfl hk hget hproto
    simp [validateApiKey, jsGet, hk, hget, hproto]
  · rintro k kd rfl hk hget hrv
    simp [validateApiKey, jsGet, hk, hget, hrv]
  · rintro k kd rfl hk hget hrv hexp
    simp [validateApiKey, jsGet, hk, hget, hrv, isKeyExpired, hexp]
  · rintro k kd rfl hk hget hrv hnow
    simp [validateApiKey, jsGet, hk, hget, hrv, isKeyExpired, Nat.not_lt.mpr hnow]

/-- C1 witness: a fresh unexpired key validates, stamping lastUsed. -/
theorem C1_witness :
    objGet [("k", cexRec)] "k" = some cexRec ∧ cexRec.revoked = false ∧
    (500 : Nat) ≤ cexRec.expiresAt ∧
    validateApiKey (some "k") [("k", cexRec)] 500 =
      (ValidateResult.ok "u", [("k", { cexRec with lastUsed := some 500 })]) := by
  refine ⟨by decide, by decide, by decide, ?_⟩
  have h := (C1_validate_gate (some "k") [("k", cexRec)] 500).2.2.2.2.2 "k" cexRec rfl
      (by decide) (by decide) (by decide) (by decide)
  rw [h]
  rfl

/-- C2: Create answers QuotaExceeded (HTTP 400) and stores nothing when
the user already holds at least 5 records, with countUserKeys counting by
userId alone — a record's revoked flag never changes the count. -/
theorem C2_quota (store : KeyStore) (bu bd : Option String) (ub kb : List Nat)
    (now : Nat)
    (h : 5 ≤ countUserKeys store (effectiveUserId bu (bytesToHex ub))) :
    createKey bu bd ub kb now store = (.quotaExceeded, store) ∧
    ∀ b : Bool,
      countUserKeys (store.map (fun p => (p.1, { p.2 with revoked := b })))
        (effectiveUserId bu (bytesToHex ub)) =
      countUserKeys store (effectiveUserId bu (bytesToHex ub)) := by
  refine ⟨?_, fun b => countUserKeys_map_revoked store _ b⟩
  simp [createKey, h]

/-- C2 witness: the 6th Create for a user with five (revoked) records
fails with QuotaExceeded and leaves the store unchanged. -/
theorem C2_witness :
    5 ≤ countUserKeys cexStore5 (effectiveUserId (some "u") (bytesToHex [1, 2, 3, 4, 5, 6, 7, 8])) ∧
    createKey (some "u") none [1, 2, 3, 4, 5, 6, 7, 8] (List.replicate 16 0) 99 cexStore5 =
      (.quotaExceeded, cexStore5) :=
  ⟨by decide,
   (C2_quota cexStore5 (some "u") none [1, 2, 3, 4, 5, 6, 7, 8]
      (List.replicate 16 0) 99 (by decide)).1⟩

/-- C3 counterexample: a request supplying userId = "" is not "omitted",
yet `req.body.userId || generated` is falsy on the empty string, so the
response carries the generated 8-byte hex id instead of the supplied
value. -/
theorem C3_counterexample :
    (createKey (some "") none [1, 2, 3, 4, 5, 6, 7, 8] (List.replicate 16 0) 0 []).1 =
      CreateResult.ok "00000000000000000000000000000000" "0102030405060708" 2592000000 ∧
    ("0102030405060708" : String) ≠ "" := by
  refine ⟨by decide, by decide⟩

/-- C3 (amended): a successful Create returns the hex encoding of the 16
random bytes (32 lowercase hex characters) as the key, stores a record
with revoked = false, lastUsed = null and expiresAt exactly 30 days after
the creation time, and answers with the key, the userId — the supplied one
when it is a non-empty string, a generated 8-byte hex string when omitted
or empty — and expiresAt. -/
theorem C3_create_success (store : KeyStore) (bu bd : Option String)
    (ub kb : List Nat) (now : Nat)
    (hub : ub.length = 8) (hkb : kb.length = 16)
    (hq : countUserKeys store (effectiveUserId bu (bytesToHex ub)) < 5) :
    createKey bu bd ub kb now store =
      (.ok (bytesToHex kb) (effectiveUserId bu (bytesToHex ub)) (now + 30 * 86400000),
       objSet store (bytesToHex kb)
         { userId := effectiveUserId bu (bytesToHex ub)
           createdAt := now
           expiresAt := now + 30 * 86400000
           lastUsed := none
           revoked := false
           revokedAt := none
           description := effectiveDescription bd
           updatedAt := none }) ∧
    (bytesToHex kb).length = 32 ∧
    (∀ c ∈ (bytesToHex kb).data, c ∈ hexDigits) ∧
    (bu = none → effectiveUserId bu (bytesToHex ub) = bytesToHex ub ∧
        (bytesToHex ub).length = 16) ∧
    (∀ s, bu = some s → s ≠ "" → effectiveUserId bu (bytesToHex ub) = s) := by
  refine ⟨?_, ?_, bytesToHex_mem kb, ?_, ?_⟩
  · simp [createKey, getExpirationDate, Nat.not_le.mpr hq]
  · rw [bytesToHex_length, hkb]
  · rintro rfl
    exact ⟨rfl, by rw [bytesToHex_length, hub]⟩
  · rintro s rfl hs
    simp [effectiveUserId, hs]

/-- C3 witness: a concrete Create with userId omitted. -/
theorem C3_witness :
    countUserKeys [] (effectiveUserId none (bytesToHex [1, 2, 3, 4, 5, 6, 7, 8])) < 5 ∧
    (createKey none none [1, 2, 3, 4, 5, 6, 7, 8] (List.replicate 16 0) 7 []).1 =
      CreateResult.ok "00000000000000000000000000000000" "0102030405060708"
        (7 + 30 * 86400000) := by
  refine ⟨by decide, ?_⟩
  have h := (C3_create_success [] none none [1, 2, 3, 4, 5, 6, 7, 8]
      (List.replicate 16 0) 7 (by decide) (by decide) (by decide)).1
  rw [h]
  decide

/-- C4 counterexample: "mailto:test@example.com" parses as an absolute URL
with a scheme but no host, so the claim's "scheme + host at minimum"
characterization demands rejection — yet `new URL` accepts it and the
shorten handler proceeds. -/
theorem C4_counterexample :
    specHasSchemeAndHost "mailto:test@example.com" = false ∧
    isValidUrl "mailto:test@example.com" = true ∧
    (shortenUrl (some "mailto:test@example.com") "u" "aabbccdd" 0 []).1 =
      ShortenResult.ok "aabbccdd" "mailto:test@example.com" := by
  refine ⟨by decide, by decide, by decide⟩

/-- C4 (amended): after the auth gate, Shorten fails with InvalidURL (400)
and writes nothing if and only if the url field is missing, empty, or
rejected by the WHATWG URL parser — which requires a scheme always but a
non-empty host only for the special schemes (http, https, ws, wss, ftp);
in particular "not-a-url" is rejected and "https://example.com/x" is
accepted. -/
theorem C4_shorten_url_validation (url : Option String) (userId shortId : String)
    (now : Nat) (urls : UrlStore) :
    (shortenUrl url userId shortId now urls = (.invalidURL, urls) ↔
      (url = none ∨ ∃ u, url = some u ∧ (u = "" ∨ isValidUrl u = false))) ∧
    isValidUrl "not-a-url" = false ∧
    isValidUrl "https://example.com/x" = true := by
  refine ⟨?_, by decide, by decide⟩
  constructor
  · intro h
    cases url with
    | none => exact Or.inl rfl
    | some u =>
      refine Or.inr ⟨u, rfl, ?_⟩
      by_cases he : u = ""
      · exact Or.inl he
      · by_cases hv : isValidUrl u
        · exfalso
          simp [shortenUrl, he, hv] at h
        · exact Or.inr (by simpa using hv)
  · intro h
    rcases h with rfl | ⟨u, rfl, h⟩
    · rfl
    · rcases h with rfl | hv
      · rfl
      · by_cases he : u = ""
        · simp [shortenUrl, he]
        · simp [shortenUrl, he, hv]

/-- C5: a successful Shorten followed immediately by Resolve on the short
identifier it returned yields exactly the original URL as the redirect
target. -/
theorem C5_roundtrip (u userId shortId : String) (now : Nat) (urls : UrlStore)
    (hne : u ≠ "") (hv : isValidUrl u = true) :
    (shortenUrl (some u) userId shortId now urls).1 = .ok shortId u ∧
    resolveUrl shortId (shortenUrl (some u) userId shortId now urls).2 =
      .redirect u := by
  have hs : shortenUrl (some u) userId shortId now urls =
      (.ok shortId u,
       objSet urls shortId
         { originalUrl := u, userId := some userId, createdAt := now }) := by
    simp [shortenUrl, hne, hv]
  rw [hs]
  exact ⟨rfl, by simp [resolveUrl, jsGet, objGet_objSet_self]⟩

/-- C5 witness: the round trip on a concrete URL. -/
theorem C5_witness :
    isValidUrl "https://example.com/x" = true ∧
    resolveUrl "aabbccdd"
        (shortenUrl (some "https://example.com/x") "u" "aabbccdd" 0 []).2 =
      ResolveResult.redirect "https://example.com/x" :=
  ⟨by decide,
   (C5_roundtrip "https://example.com/x" "u" "aabbccdd" 0 [] (by decide) (by decide)).2⟩

/-- C6 counterexample: the 4-byte short identifier is random with no
uniqueness check, so the two sequential calls can draw the same bytes; the
returned identifiers then coincide and the second write displaces the
first record (the final store holds a single record with the second call's
createdAt). -/
theorem C6_counterexample :
    (shortenUrl (some "https://example.com/x") "u" "aabbccdd" 0 []).1 =
      ShortenResult.ok "aabbccdd" "https://example.com/x" ∧
    (shortenUrl (some "https://example.com/x") "u" "aabbccdd" 1
        (shortenUrl (some "https://example.com/x") "u" "aabbccdd" 0 []).2).1 =
      ShortenResult.ok "aabbccdd" "https://example.com/x" ∧
    (shortenUrl (some "https://example.com/x") "u" "aabbccdd" 1
        (shortenUrl (some "https://example.com/x") "u" "aabbccdd" 0 []).2).2 =
      [("aabbccdd",
        { originalUrl := "https://example.com/x", userId := some "u",
          createdAt := 1 })] := by
  refine ⟨by decide, by decide, by decide⟩

/-- C6 (amended): two sequential Shorten calls with the same URL and the
same key produce two distinct short identifiers, both of which resolve and
neither of which displaces the other, whenever the independently generated
random identifiers differ; when the 4-byte identifiers collide, the second
call silently overwrites the first record and the returned identifiers
coincide. -/
theorem C6_two_shortens (u userId s1 s2 : String) (n1 n2 : Nat) (urls : UrlStore)
    (hne : u ≠ "") (hv : isValidUrl u = true) (hs : s1 ≠ s2) :
    (shortenUrl (some u) userId s1 n1 urls).1 = .ok s1 u ∧
    (shortenUrl (some u) userId s2 n2 (shortenUrl (some u) userId s1 n1 urls).2).1 =
      .ok s2 u ∧
    resolveUrl s1 (shortenUrl (some u) userId s2 n2
        (shortenUrl (some u) userId s1 n1 urls).2).2 = .redirect u ∧
    resolveUrl s2 (shortenUrl (some u) userId s2 n2
        (shortenUrl (some u) userId s1 n1 urls).2).2 = .redirect u := by
  have h1 : shortenUrl (some u) userId s1 n1 urls =
      (.ok s1 u,
       objSet urls s1 { originalUrl := u, userId := some userId, createdAt := n1 }) := by
    simp [shortenUrl, hne, hv]
  have h2 : ∀ st : UrlStore, shortenUrl (some u) userId s2 n2 st =
      (.ok s2 u,
       objSet st s2 { originalUrl := u, userId := some userId, createdAt := n2 }) := by
    intro st
    simp [shortenUrl, hne, hv]
  refine ⟨?_, ?_, ?_, ?_⟩
  · rw [h1]
  · rw [h1, h2]
  · rw [h1, h2]
    simp [resolveUrl, jsGet, objGet_objSet_ne _ _ _ _ hs, objGet_objSet_self]
  · rw [h1, h2]
    simp [resolveUrl, jsGet, objGet_objSet_self]

/-- C6 witness: two concrete shortens with distinct generated identifiers,
the first still resolving after the second. -/
theorem C6_witness :
    ("aabbccdd" : String) ≠ "11223344" ∧
    resolveUrl "aabbccdd" (shortenUrl (some "https://example.com/x") "u" "11223344" 1
        (shortenUrl (some "https://example.com/x") "u" "aabbccdd" 0 []).2).2 =
      ResolveResult.redirect "https://example.com/x" :=
  ⟨by decide,
   (C6_two_shortens "https://example.com/x" "u" "aabbccdd" "11223344" 0 1 []
      (by decide) (by decide) (by decide)).2.2.1⟩

/-- C7 counterexample: "constructor" is not present in an (empty) URL
store, yet GET /constructor does not answer NotFound: the bracket read
`urls["constructor"]` yields the truthy inherited
`Object.prototype.constructor`, so the handler skips the 404 branch and
calls `res.redirect` on its undefined originalUrl field. -/
theorem C7_counterexample :
    objGet ([] : UrlStore) "constructor" = none ∧
    resolveUrl "constructor" ([] : UrlStore) = ResolveResult.redirectUndefined ∧
    resolveUrl "constructor" ([] : UrlStore) ≠ ResolveResult.notFound := by
  refine ⟨by decide, by decide, by decide⟩

/-- C7 (amended): for every short identifier absent from the URL store
that does not name an Object.prototype property, Resolve fails with
NotFound (404); for an absent identifier that names an Object.prototype
property (such as "constructor"), the inherited value is truthy, the 404
branch is skipped, and the handler redirects to undefined; for every
identifier present, it yields the stored originalUrl as an HTTP
redirect. -/
theorem C7_resolve (s : String) (urls : UrlStore) :
    (objGet urls s = none → isProtoProp s = false →
        resolveUrl s urls = .notFound) ∧
    (objGet urls s = none → isProtoProp s = true →
        resolveUrl s urls = .redirectUndefined) ∧
    (∀ r, objGet urls s = some r → resolveUrl s urls = .redirect r.originalUrl) := by
  refine ⟨?_, ?_, ?_⟩
  · intro h hp
    simp [resolveUrl, jsGet, h, hp]
  · intro h hp
    simp [resolveUrl, jsGet, h, hp]
  · intro r h
    simp [resolveUrl, jsGet, h]

/-- C7 witness: a never-created ordinary identifier is NotFound; a present
one redirects to its stored URL. -/
theorem C7_witness :
    resolveUrl "zz" [("aabbccdd", cexUrlRec)] = ResolveResult.notFound ∧
    resolveUrl "aabbccdd" [("aabbccdd", cexUrlRec)] =
      ResolveResult.redirect "https://a.com" :=
  ⟨(C7_resolve "zz" [("aabbccdd", cexUrlRec)]).1 (by decide) (by decide),
   (C7_resolve "aabbccdd" [("aabbccdd", cexUrlRec)]).2.2 cexUrlRec (by decide)⟩

/-- C8: the store's read returns the empty mapping when the file does not
exist, the parsed JSON document when the file exists and parses, and a
parse error when the file exists but is not valid JSON. -/
theorem C8_readJSON_contract (parse : String → Option Json) :
    readJSON parse none = .ok (.obj []) ∧
    (∀ s d, parse s = some d → readJSON parse (some s) = .ok d) ∧
    (∀ s, parse s = none → readJSON parse (some s) = .parseError) := by
  refine ⟨rfl, ?_, ?_⟩
  · intro s d h
    simp [readJSON, h]
  · intro s h
    simp [readJSON, h]

/-- C8 witness: the three read outcomes on a concrete parse function. -/
theorem C8_witness :
    readJSON cexParse none = ReadResult.ok (Json.obj []) ∧
    readJSON cexParse (some "null") = ReadResult.ok Json.null ∧
    readJSON cexParse (some "not json") = ReadResult.parseError :=
  ⟨(C8_readJSON_contract cexParse).1,
   (C8_readJSON_contract cexParse).2.1 "null" Json.null rfl,
   (C8_readJSON_contract cexParse).2.2 "not json" rfl⟩

/-- C9: no operation ever removes an identifier from either store —
records are only added or mutated in place, revocation being a soft
flag. -/
theorem C9_no_physical_deletion (op : Op) (ks : KeyStore) (us : UrlStore)
    (k : String) :
    (objHas ks k = true → objHas (applyOp op (ks, us)).1 k = true) ∧
    (objHas us k = true → objHas (applyOp op (ks, us)).2 k = true) := by
  cases op with
  | createOp bu bd ub kb now =>
    exact ⟨fun h => createKey_preserves bu bd ub kb now ks k h, fun h => h⟩
  | listOp u => exact ⟨fun h => h, fun h => h⟩
  | revokeOp kk now =>
    exact ⟨fun h => revokeKey_preserves kk now ks k h, fun h => h⟩
  | patchOp kk d now =>
    exact ⟨fun h => updateDescription_preserves kk d now ks k h, fun h => h⟩
  | validateOp hdr now =>
    exact ⟨fun h => validateApiKey_preserves hdr ks now k h, fun h => h⟩
  | shortenOp hdr url sid now =>
    constructor
    · intro h
      have hp := validateApiKey_preserves hdr ks now k h
      dsimp only [applyOp]
      rcases hv : validateApiKey hdr ks now with ⟨r, ks'⟩
      rw [hv] at hp
      cases r <;> simpa using hp
    · intro h
      dsimp only [applyOp]
      rcases hv : validateApiKey hdr ks now with ⟨r, ks'⟩
      cases r with
      | ok uid => simpa using shortenUrl_preserves url uid sid now us k h
      | okInherited => simpa using shortenUrlInherited_preserves url sid now us k h
      | unauthorized => simpa using h
      | invalidKey => simpa using h
      | revokedKey => simpa using h
      | expiredKey => simpa using h
  | resolveOp s => exact ⟨fun h => h, fun h => h⟩

/-- C9 witness: revoking a present key keeps its identifier in the store. -/
theorem C9_witness :
    objHas [("k", cexRec)] "k" = true ∧
    objHas (applyOp (.revokeOp "k" 5) ([("k", cexRec)], [])).1 "k" = true :=
  ⟨by decide,
   (C9_no_physical_deletion (.revokeOp "k" 5) [("k", cexRec)] [] "k").1 (by decide)⟩

/-- C10: UpdateDescription on a stored key changes only that record's
description and updatedAt: userId, createdAt, expiresAt, lastUsed,
revoked, revokedAt are unchanged, every record at any other key is
unchanged, and the URL store is untouched. -/
theorem C10_patch_frame (store : KeyStore) (k : String) (keyData : ApiKeyRecord)
    (desc : Option String) (now : Nat) (us : UrlStore)
    (h : objGet store k = some keyData) :
    (updateDescription k desc now store).1 =
      .ok k { keyData with description := desc, updatedAt := some now } ∧
    objGet (updateDescription k desc now store).2 k =
      some { keyData with description := desc, updatedAt := some now } ∧
    ({ keyData with description := desc, updatedAt := some now }).userId =
      keyData.userId ∧
    ({ keyData with description := desc, updatedAt := some now }).createdAt =
      keyData.createdAt ∧
    ({ keyData with description := desc, updatedAt := some now }).expiresAt =
      keyData.expiresAt ∧
    ({ keyData with description := desc, updatedAt := some now }).lastUsed =
      keyData.lastUsed ∧
    ({ keyData with description := desc, updatedAt := some now }).revoked =
      keyData.revoked ∧
    ({ keyData with description := desc, updatedAt := some now }).revokedAt =
      keyData.revokedAt ∧
    (∀ k', k' ≠ k → objGet (updateDescription k desc now store).2 k' =
      objGet store k') ∧
    (applyOp (.patchOp k desc now) (store, us)).2 = us := by
  have hu : updateDescription k desc now store =
      (.ok k { keyData with description := desc, updatedAt := some now },
       objSet store k { keyData with description := desc, updatedAt := some now }) := by
    simp [updateDescription, jsGet, h]
  refine ⟨?_, ?_, rfl, rfl, rfl, rfl, rfl, rfl, ?_, rfl⟩
  · rw [hu]
  · rw [hu]
    exact objGet_objSet_self _ _ _
  · intro k' hk'
    rw [hu]
    exact objGet_objSet_ne _ _ _ _ hk'

/-- C10 witness: a concrete description update frames every other field
and every other record. -/
theorem C10_witness :
    objGet [("k", cexRec)] "k" = some cexRec ∧
    (updateDescription "k" (some "new desc") 42 [("k", cexRec)]).1 =
      PatchResult.ok "k"
        { cexRec with description := some "new desc", updatedAt := some 42 } ∧
    objGet (updateDescription "k" (some "new desc") 42 [("k", cexRec)]).2 "zz" =
      objGet [("k", cexRec)] "zz" :=
  ⟨by decide,
   (C10_patch_frame [("k", cexRec)] "k" cexRec (some "new desc") 42 [] (by decide)).1,
   (C10_patch_frame [("k", cexRec)] "k" cexRec (some "new desc") 42 []
      (by decide)).2.2.2.2.2.2.2.2.1 "zz" (by decide)⟩

end UrlShortener
